import Mathlib

/-!
Shallow embedding of the time-series windowing and zoom engine of
`src/frontend/src/App.tsx` (the `HomePage` component and the `formatDate`
helper), together with theorems settling the frozen claims about it.

Conventions of the embedding:
* JS numbers that only ever hold integer index arithmetic are modelled as `ℤ`
  (with `max`/`min` written exactly as in the source).
* Prices (`actual`, `predicted`) are modelled as `ℚ`; the one place where a
  non-finite JS number can arise (`Math.min()` / `Math.max()` over an empty
  spread, giving `Infinity` / `-Infinity`) is modelled by the extended type
  `JVal`.
* `Array.prototype.slice` is modelled by `jsSlice` with the ECMAScript index
  clamping rules; `String.prototype.split('-')` by `splitDash`;
  `Array.prototype.findIndex` by `findIndex` (returning `Option ℕ` instead of
  the `-1` sentinel, exactly as the call site tests `idx === -1`).
* React state touched by the chart is `windowStart` and `zoomRange`
  (`ChartState`); each event handler of the source becomes a function from the
  old state to the new state.
-/

namespace FinanceChart

/-- One point of `result.historical` (interface `HistoricalDataPoint` in the
source): a date string `"YYYY-MM-DD"` plus actual and predicted prices. -/
structure HistoricalDataPoint where
  date : String
  actual : ℚ
  predicted : ℚ
deriving DecidableEq

/-- `String.prototype.split('-')` of the source's `formatDate`, on the
character list of the string: splits at every `'-'`, keeping empty components,
and yields `[""]` for the empty string — exactly the JS semantics. -/
def splitDash : List Char → List (List Char)
  | [] => [[]]
  | c :: cs =>
    if c = '-' then [] :: splitDash cs
    else
      match splitDash cs with
      | [] => [[c]]
      | h :: t => (c :: h) :: t

/-- `formatDate` of the source: `""` for a falsy input, `"MM/DD/YYYY"` when the
input splits into exactly three dash-separated components, and the input
unchanged otherwise. -/
def formatDate (dateStr : String) : String :=
  if dateStr = "" then ""
  else
    match splitDash dateStr.data with
    | [y, m, d] => String.mk m ++ "/" ++ String.mk d ++ "/" ++ String.mk y
    | _ => dateStr

/-- `d.date.slice(0, 7)` of the source: the month key `"YYYY-MM"` of a date. -/
def monthKey (s : String) : String :=
  String.mk (s.data.take 7)

/-- `Array.from(new Set(...))`: deduplication keeping the first occurrence of
each element, in order — the insertion order of a JS `Set`. -/
def uniqueFirstAux (seen : List String) : List String → List String
  | [] => []
  | x :: xs =>
    if x ∈ seen then uniqueFirstAux seen xs
    else x :: uniqueFirstAux (x :: seen) xs

/-- `months` of the source: the unique month keys of the series, in order of
first occurrence. -/
def months (historical : List HistoricalDataPoint) : List String :=
  uniqueFirstAux [] (historical.map (fun d => monthKey d.date))

/-- `const monthsToShow = 4` of the source. -/
def monthsToShow : ℤ := 4

/-- `totalWindows = Math.max(1, months.length - monthsToShow + 1)`. -/
def totalWindows (historical : List HistoricalDataPoint) : ℤ :=
  max 1 (((months historical).length : ℤ) - monthsToShow + 1)

/-- `defaultWindow = Math.max(0, months.length - monthsToShow)`. -/
def defaultWindow (historical : List HistoricalDataPoint) : ℤ :=
  max 0 (((months historical).length : ℤ) - monthsToShow)

/-- `currentWindow = Math.min(windowStart, totalWindows - 1)`. -/
def currentWindow (historical : List HistoricalDataPoint) (windowStart : ℤ) : ℤ :=
  min windowStart (totalWindows historical - 1)

/-- ECMAScript index resolution used by `Array.prototype.slice`: a negative
index counts from the end (clamped at 0), a non-negative one is clamped at the
length. -/
def jsIndex (len i : ℤ) : ℤ :=
  if i < 0 then max (len + i) 0 else min i len

/-- `Array.prototype.slice(a, b)`. -/
def jsSlice (l : List α) (a b : ℤ) : List α :=
  let s := jsIndex (l.length : ℤ) a
  let e := jsIndex (l.length : ℤ) b
  (l.drop s.toNat).take (e - s).toNat

/-- `visibleMonths = months.slice(currentWindow, currentWindow + monthsToShow)`. -/
def visibleMonths (historical : List HistoricalDataPoint) (windowStart : ℤ) : List String :=
  jsSlice (months historical) (currentWindow historical windowStart)
    (currentWindow historical windowStart + monthsToShow)

/-- The `zoomRange` state object `{start: number, end: number}` of the source. -/
structure ZoomRange where
  start : ℤ
  «end» : ℤ
deriving DecidableEq

/-- The chart-related React state of `HomePage`: `windowStart` and `zoomRange`
(`null` modelled as `none`). -/
structure ChartState where
  windowStart : ℤ
  zoomRange : Option ZoomRange
deriving DecidableEq

/-- The un-zoomed branch of `visibleData`:
`historical.filter(d => visibleMonths.includes(d.date.slice(0, 7)))`. -/
def monthView (historical : List HistoricalDataPoint) (windowStart : ℤ) :
    List HistoricalDataPoint :=
  historical.filter (fun d => decide (monthKey d.date ∈ visibleMonths historical windowStart))

/-- `visibleData` of the source: the zoom slice of the full series when
`zoomRange && zoomRange.start >= 0 && zoomRange.end > zoomRange.start`,
otherwise the month-filtered view. -/
def visibleData (historical : List HistoricalDataPoint) (st : ChartState) :
    List HistoricalDataPoint :=
  match st.zoomRange with
  | some r =>
    if 0 ≤ r.start ∧ r.start < r.«end» then jsSlice historical r.start r.«end»
    else monthView historical st.windowStart
  | none => monthView historical st.windowStart

/-- A JS number as produced by the y-bound computation: a finite rational or
one of the two infinities (`Math.min()` of an empty spread is `Infinity`,
`Math.max()` is `-Infinity`). -/
inductive JVal where
  | fin : ℚ → JVal
  | posInf : JVal
  | negInf : JVal
deriving DecidableEq

/-- `Math.min` on two extended values. -/
def jmin : JVal → JVal → JVal
  | JVal.negInf, _ => JVal.negInf
  | _, JVal.negInf => JVal.negInf
  | JVal.posInf, b => b
  | a, JVal.posInf => a
  | JVal.fin a, JVal.fin b => JVal.fin (min a b)

/-- `Math.max` on two extended values. -/
def jmax : JVal → JVal → JVal
  | JVal.posInf, _ => JVal.posInf
  | _, JVal.posInf => JVal.posInf
  | JVal.negInf, b => b
  | a, JVal.negInf => a
  | JVal.fin a, JVal.fin b => JVal.fin (max a b)

/-- `isFinite` of a `JVal`. -/
def JVal.isFinite : JVal → Bool
  | JVal.fin _ => true
  | _ => false

/-- `Math.min(...visibleData.map(d => Math.min(d.actual, d.predicted)))`. -/
def rawMin (data : List HistoricalDataPoint) : JVal :=
  data.foldl (fun acc d => jmin acc (JVal.fin (min d.actual d.predicted))) JVal.posInf

/-- `Math.max(...visibleData.map(d => Math.max(d.actual, d.predicted)))`. -/
def rawMax (data : List HistoricalDataPoint) : JVal :=
  data.foldl (fun acc d => jmax acc (JVal.fin (max d.actual d.predicted))) JVal.negInf

/-- The y-axis domain `[yMin, yMax]` handed to the `YAxis` by the source.
The `isFinite(yMin) && isFinite(yMax)` guard of the source is the
first match arm (both bounds finite); when it fails, the raw bounds are passed
through unchanged. `zoomSet` is the truthiness of `zoomRange` used by the
margin branch. `0.05` of the source is the exact rational `5/100`. -/
def yDomain (data : List HistoricalDataPoint) (zoomSet : Bool) : JVal × JVal :=
  match rawMin data, rawMax data with
  | JVal.fin a, JVal.fin b =>
    if zoomSet then
      let yRange := b - a
      (JVal.fin (a - yRange * (5 / 100)), JVal.fin (b + yRange * (5 / 100)))
    else
      (JVal.fin ((⌊a - 15⌋ : ℤ) : ℚ), JVal.fin ((⌈b + 15⌉ : ℤ) : ℚ))
  | mn, mx => (mn, mx)

/-- Follows the words of the spec (§4.6 AxisRangeCalculator), to be compared
with the source's `yDomain`: the spec demands `undefined` (here `none`) when
the visible subset is empty or a bound is non-finite, and the margin rules
otherwise. -/
def axisDomainSpec (data : List HistoricalDataPoint) (zoomed : Bool) : Option (ℚ × ℚ) :=
  match rawMin data, rawMax data with
  | JVal.fin a, JVal.fin b =>
    if zoomed then some (a - (b - a) * (5 / 100), b + (b - a) * (5 / 100))
    else some (((⌊a - 15⌋ : ℤ) : ℚ), ((⌈b + 15⌉ : ℤ) : ℚ))
  | _, _ => none

/-- `Array.prototype.findIndex`: index of the first element satisfying the
predicate (`none` models the `-1` sentinel that the source compares against). -/
def findIndex (p : α → Bool) : List α → Option ℕ
  | [] => none
  | a :: l => if p a then some 0 else (findIndex p l).map (· + 1)

/-- The `onClick` handler of the `LineChart`, restricted to the `zoomRange`
state it updates. `activeLabel = none` models a click event that is falsy or
carries no `activeLabel`; the source's `if (!e || !e.activeLabel) return` also
fires on the empty string (falsy in JS), hence the `lbl = ""` test. -/
def selectPoint (activeLabel : Option String) (historical : List HistoricalDataPoint)
    (zr : Option ZoomRange) : Option ZoomRange :=
  match activeLabel with
  | none => zr
  | some lbl =>
    if lbl = "" then zr
    else
      match zr with
      | none =>
        match findIndex (fun d => formatDate d.date == lbl) historical with
        | none => zr
        | some idx =>
          let start : ℤ := max 0 ((idx : ℤ) - 3)
          let e : ℤ := min ((historical.length : ℤ)) (start + 7)
          let start1 : ℤ := if e - start < 7 then max 0 (e - 7) else start
          some ⟨start1, e⟩
      | some _ => none

/-- The full effect of the `LineChart` `onClick` handler on the chart state:
it only ever calls `setZoomRange`, so `windowStart` is carried through
unchanged. -/
def handleChartClick (activeLabel : Option String) (historical : List HistoricalDataPoint)
    (st : ChartState) : ChartState :=
  { st with zoomRange := selectPoint activeLabel historical st.zoomRange }

/-- The left-arrow handler: `setWindowStart(Math.max(0, currentWindow - 1))`. -/
def navPrev (historical : List HistoricalDataPoint) (st : ChartState) : ChartState :=
  { st with windowStart := max 0 (currentWindow historical st.windowStart - 1) }

/-- The right-arrow handler:
`setWindowStart(Math.min(totalWindows - 1, currentWindow + 1))`. -/
def navNext (historical : List HistoricalDataPoint) (st : ChartState) : ChartState :=
  { st with
      windowStart := min (totalWindows historical - 1) (currentWindow historical st.windowStart + 1) }

/-- The `React.useEffect(() => { setWindowStart(defaultWindow); }, [result])`
of the source: the only state change triggered by a new result. It resets
`windowStart` to the new default window and touches nothing else — in
particular `zoomRange` is left as it was. -/
def onNewResult (newHistorical : List HistoricalDataPoint) (st : ChartState) : ChartState :=
  { st with windowStart := defaultWindow newHistorical }

/-- A concrete 10-point, 5-month series used by the witnesses:
`months = ["2024-01", ..., "2024-05"]`, `totalWindows = 2`,
`defaultWindow = 1`. -/
def sampleSeries : List HistoricalDataPoint :=
  [⟨"2024-01-02", 100, 101⟩, ⟨"2024-01-03", 102, 100⟩,
   ⟨"2024-02-01", 103, 104⟩, ⟨"2024-02-02", 101, 102⟩,
   ⟨"2024-03-01", 105, 104⟩, ⟨"2024-03-02", 106, 107⟩,
   ⟨"2024-04-01", 108, 107⟩, ⟨"2024-04-02", 109, 110⟩,
   ⟨"2024-05-01", 111, 110⟩, ⟨"2024-05-02", 112, 113⟩]

/-- A concrete two-point visible subset used by the axis-margin witness. -/
def pairData : List HistoricalDataPoint :=
  [⟨"2024-01-02", 10, 12⟩, ⟨"2024-01-03", 20, 8⟩]

/-- `findIndex` only returns indices inside the list. -/
lemma findIndex_lt_length (p : α → Bool) :
    ∀ (l : List α) (i : ℕ), findIndex p l = some i → i < l.length := by
  intro l
  induction l with
  | nil => intro i h; simp [findIndex] at h
  | cons a t ih =>
    intro i h
    by_cases hp : p a
    · simp [findIndex, hp] at h
      simp only [List.length_cons]
      omega
    · simp [findIndex, hp, Option.map_eq_some'] at h
      obtain ⟨j, hj, hji⟩ := h
      have := ih j hj
      simp only [List.length_cons]
      omega

/-- Claim C9: `formatDate` turns any input that splits into exactly three
dash-separated components `y`, `m`, `d` into `m/d/y`, and returns any other
input unchanged. -/
theorem formatDate_spec :
    ∀ (s : String),
      (∀ y m d : List Char, splitDash s.data = [y, m, d] →
        formatDate s = String.mk m ++ "/" ++ String.mk d ++ "/" ++ String.mk y) ∧
      ((splitDash s.data).length ≠ 3 → formatDate s = s) := by
  intro s
  constructor
  · intro y m d h
    by_cases hs : s = ""
    · subst hs
      have h0 : splitDash ("" : String).data = [[]] := rfl
      rw [h0] at h
      simp at h
    · unfold formatDate
      rw [if_neg hs, h]
  · intro h3
    by_cases hs : s = ""
    · subst hs; rfl
    · unfold formatDate
      rw [if_neg hs]
      split
      · rename_i y m d heq
        rw [heq] at h3
        simp at h3
      · rfl

/-- Witness for C9: the two worked examples of the spec. -/
theorem formatDate_spec_witness :
    formatDate ("2024-03-07") = "03/07/2024" ∧ formatDate ("2024/03/07") = "2024/03/07" := by
  constructor
  · have h := (formatDate_spec ("2024-03-07")).1 ("2024".data) ("03".data) ("07".data) (by decide)
    rw [h]
    decide
  · exact (formatDate_spec ("2024/03/07")).2 (by decide)

/-- Claim C8: a chart click (zoom in, zoom out, or miss) never changes
`windowStart`, hence never changes the current window index either. -/
theorem click_preserves_window :
    ∀ (activeLabel : Option String) (historical : List HistoricalDataPoint) (st : ChartState),
      (handleChartClick activeLabel historical st).windowStart = st.windowStart ∧
      currentWindow historical (handleChartClick activeLabel historical st).windowStart
        = currentWindow historical st.windowStart := by
  intro activeLabel historical st
  exact ⟨rfl, rfl⟩

/-- Claim C1 (code bug): a new result only resets `windowStart` to the default
window; a previously stored zoom range survives the arrival of the new series
instead of being cleared to `None`. Here the user had navigated away (window 0,
default 1) and zoomed, and after the new series arrives the zoom is still set. -/
theorem newSeries_keeps_stale_zoom :
    (onNewResult sampleSeries ⟨0, some ⟨0, 7⟩⟩).zoomRange = some ⟨0, 7⟩ ∧
    (onNewResult sampleSeries ⟨0, some ⟨0, 7⟩⟩).windowStart = defaultWindow sampleSeries ∧
    defaultWindow sampleSeries = 1 := by
  exact ⟨rfl, rfl, by decide⟩

/-- Counterexample for C2: while zoomed, a click event carrying no
`activeLabel` (a falsy event or a click outside any point, which the source
swallows with `if (!e || !e.activeLabel) return`) does NOT clear the zoom
state, contradicting "any click anywhere on the chart unconditionally clears
it back to None". -/
theorem zoomed_labelless_click_keeps_zoom :
    selectPoint none sampleSeries (some ⟨0, 7⟩) = some ⟨0, 7⟩ ∧
    selectPoint none sampleSeries (some ⟨0, 7⟩) ≠ none := by
  exact ⟨rfl, by decide⟩

/-- Claim C2 (amended): clicks without an active label (or with the empty
label, falsy in JS) are ignored in both modes; with a non-empty label the
toggle is two-state exactly as claimed — unzoomed misses are no-ops, unzoomed
hits set a range, and any labelled click while zoomed clears the zoom. -/
theorem selectPoint_toggle :
    ∀ (historical : List HistoricalDataPoint) (lbl : String) (zr : Option ZoomRange),
      selectPoint none historical zr = zr ∧
      selectPoint (some "") historical zr = zr ∧
      (zr = none → findIndex (fun d => formatDate d.date == lbl) historical = none →
        selectPoint (some lbl) historical zr = none) ∧
      (∀ i, zr = none → lbl ≠ "" →
        findIndex (fun d => formatDate d.date == lbl) historical = some i →
        (selectPoint (some lbl) historical zr).isSome = true) ∧
      (∀ r, zr = some r → lbl ≠ "" → selectPoint (some lbl) historical zr = none) := by
  intro historical lbl zr
  refine ⟨rfl, by simp [selectPoint], ?_, ?_, ?_⟩
  · intro hz hf
    subst hz
    by_cases hlbl : lbl = ""
    · simp [selectPoint, hlbl]
    · simp [selectPoint, hlbl, hf]
  · intro i hz hlbl hf
    subst hz
    simp [selectPoint, hlbl, hf]
  · intro r hz hlbl
    subst hz
    simp [selectPoint, hlbl]

/-- Witness for C2's amended theorem: on the sample series, a labelled hit
while unzoomed sets a range, and a labelled click while zoomed clears it. -/
theorem selectPoint_toggle_witness :
    (selectPoint (some "05/01/2024") sampleSeries none).isSome = true ∧
    selectPoint (some "05/01/2024") sampleSeries (some ⟨3, 10⟩) = none :=
  ⟨(selectPoint_toggle sampleSeries ("05/01/2024") none).2.2.2.1 8 rfl (by decide) (by decide),
   (selectPoint_toggle sampleSeries ("05/01/2024") (some ⟨3, 10⟩)).2.2.2.2 ⟨3, 10⟩ rfl (by decide)⟩

/-- Claim C7: `totalWindows` is `max 1 (monthCount - 4 + 1)`; paging left never
makes the current window index negative, paging right never reaches
`totalWindows`, and both are no-ops at their respective boundary. -/
theorem nav_clamped :
    ∀ (historical : List HistoricalDataPoint) (st : ChartState),
      totalWindows historical = max 1 (((months historical).length : ℤ) - 4 + 1) ∧
      0 ≤ currentWindow historical (navPrev historical st).windowStart ∧
      currentWindow historical (navNext historical st).windowStart < totalWindows historical ∧
      (currentWindow historical st.windowStart = 0 →
        currentWindow historical (navPrev historical st).windowStart = 0) ∧
      (currentWindow historical st.windowStart = totalWindows historical - 1 →
        currentWindow historical (navNext historical st).windowStart
          = totalWindows historical - 1) := by
  intro historical st
  simp only [navPrev, navNext, currentWindow, totalWindows, monthsToShow]
  refine ⟨?_, ?_, ?_, ?_, ?_⟩
  · trivial
  all_goals omega

/-- Witness for C7: at the sample series (2 windows), paging left at window 0
stays at 0 and paging right at the last window stays at the last window. -/
theorem nav_clamped_witness :
    currentWindow sampleSeries (navPrev sampleSeries ⟨0, none⟩).windowStart = 0 ∧
    currentWindow sampleSeries (navNext sampleSeries ⟨1, none⟩).windowStart
      = totalWindows sampleSeries - 1 :=
  ⟨(nav_clamped sampleSeries ⟨0, none⟩).2.2.2.1 (by decide),
   (nav_clamped sampleSeries ⟨1, none⟩).2.2.2.2 (by decide)⟩

/-- Claim C4: a successful zoom click at index `idx` yields a range of width
exactly 7 whenever the series has at least 7 points (anchored at
`max 0 (idx - 3)` and re-anchored at the right edge), and the whole series
otherwise. -/
theorem zoom_width_seven :
    ∀ (historical : List HistoricalDataPoint) (lbl : String) (idx : ℕ) (r : ZoomRange),
      findIndex (fun d => formatDate d.date == lbl) historical = some idx →
      selectPoint (some lbl) historical none = some r →
      (7 ≤ (historical.length : ℤ) →
        r.«end» - r.start = 7 ∧
        r.start = max 0 (min ((historical.length : ℤ) - 7) ((idx : ℤ) - 3)) ∧
        r.«end» = r.start + 7) ∧
      ((historical.length : ℤ) < 7 → r.start = 0 ∧ r.«end» = (historical.length : ℤ)) := by
  intro historical lbl idx r hf hs
  by_cases hlbl : lbl = ""
  · rw [hlbl] at hs
    simp [selectPoint] at hs
  · simp only [selectPoint, if_neg hlbl, hf] at hs
    obtain ⟨s, e⟩ := r
    simp only [Option.some.injEq, ZoomRange.mk.injEq] at hs
    obtain ⟨hs1, hs2⟩ := hs
    dsimp only
    split at hs1 <;>
      exact ⟨fun hlen => ⟨by omega, by omega, by omega⟩, fun hlen => ⟨by omega, by omega⟩⟩

/-- Witness for C4: clicking the point labelled `05/01/2024` (index 8) of the
10-point sample series yields the width-7 range anchored per the claim. -/
theorem zoom_width_seven_witness :
    (7 ≤ (sampleSeries.length : ℤ) →
      (10 : ℤ) - 3 = 7 ∧
      (3 : ℤ) = max 0 (min ((sampleSeries.length : ℤ) - 7) ((8 : ℤ) - 3)) ∧
      (10 : ℤ) = 3 + 7) ∧
    ((sampleSeries.length : ℤ) < 7 → (3 : ℤ) = 0 ∧ (10 : ℤ) = (sampleSeries.length : ℤ)) :=
  zoom_width_seven sampleSeries ("05/01/2024") 8 ⟨3, 10⟩ (by decide) (by decide)

/-- Claim C10: any zoom range coming out of a click — assuming the range
already stored (if any) satisfied the invariant — satisfies
`0 ≤ start < end ≤ length`, so the slice of the series it denotes is
well-defined and non-empty. -/
theorem selectPoint_range_invariant :
    ∀ (historical : List HistoricalDataPoint) (activeLabel : Option String)
      (zr : Option ZoomRange) (r : ZoomRange),
      (∀ r₀, zr = some r₀ →
        0 ≤ r₀.start ∧ r₀.start < r₀.«end» ∧ r₀.«end» ≤ (historical.length : ℤ)) →
      selectPoint activeLabel historical zr = some r →
      (0 ≤ r.start ∧ r.start < r.«end» ∧ r.«end» ≤ (historical.length : ℤ)) ∧
      (historical.drop r.start.toNat).take (r.«end» - r.start).toNat ≠ [] := by
  intro historical activeLabel zr r hinv hs
  have main : 0 ≤ r.start ∧ r.start < r.«end» ∧ r.«end» ≤ (historical.length : ℤ) := by
    cases activeLabel with
    | none => exact hinv r (by simpa [selectPoint] using hs)
    | some lbl =>
      by_cases hlbl : lbl = ""
      · exact hinv r (by simpa [selectPoint, hlbl] using hs)
      · cases hzr : zr with
        | some r0 =>
          rw [hzr] at hs
          simp [selectPoint, hlbl] at hs
        | none =>
          rw [hzr] at hs
          cases hf : findIndex (fun d => formatDate d.date == lbl) historical with
          | none => simp [selectPoint, hlbl, hf] at hs
          | some idx =>
            have hlt := findIndex_lt_length _ historical idx hf
            simp only [selectPoint, if_neg hlbl, hf] at hs
            obtain ⟨s, e⟩ := r
            simp only [Option.some.injEq, ZoomRange.mk.injEq] at hs
            obtain ⟨hs1, hs2⟩ := hs
            dsimp only
            refine ⟨?_, ?_, ?_⟩ <;> (split at hs1 <;> omega)
  refine ⟨main, ?_⟩
  intro hnil
  have hlen := congrArg List.length hnil
  simp only [List.length_take, List.length_drop, List.length_nil] at hlen
  omega

/-- Witness for C10: the concrete range `{start := 3, end := 10}` produced by
a click on the sample series satisfies the invariant and slices non-trivially. -/
theorem selectPoint_range_invariant_witness :
    ((0 : ℤ) ≤ 3 ∧ (3 : ℤ) < 10 ∧ (10 : ℤ) ≤ (sampleSeries.length : ℤ)) ∧
    (sampleSeries.drop ((3 : ℤ)).toNat).take (((10 : ℤ) - 3)).toNat ≠ [] :=
  selectPoint_range_invariant sampleSeries (some "05/01/2024") none ⟨3, 10⟩
    (fun r₀ h => nomatch h) (by decide)

/-- For non-negative, ordered indices, the ECMAScript slice is a drop followed
by a take. -/
lemma jsSlice_eq_drop_take (l : List α) (a b : ℤ) (h0 : 0 ≤ a) (hab : a ≤ b) :
    jsSlice l a b = (l.drop a.toNat).take (b - a).toNat := by
  unfold jsSlice jsIndex
  have ha0 : ¬ a < 0 := by omega
  have hb0 : ¬ b < 0 := by omega
  simp only [if_neg ha0, if_neg hb0]
  rcases le_or_lt (l.length : ℤ) a with hla | hla
  · have h1 : min a (l.length : ℤ) = (l.length : ℤ) := by omega
    have h2 : min b (l.length : ℤ) = (l.length : ℤ) := by omega
    rw [h1, h2]
    have h3 : l.drop ((l.length : ℤ)).toNat = [] := by
      simp
    have h4 : l.drop a.toNat = [] := List.drop_eq_nil_of_le (by omega)
    rw [h3, h4]
    simp
  · have h1 : min a (l.length : ℤ) = a := by omega
    rw [h1]
    rcases le_or_lt b (l.length : ℤ) with hlb | hlb
    · rw [min_eq_left hlb]
    · rw [min_eq_right (le_of_lt hlb)]
      rw [List.take_of_length_le, List.take_of_length_le]
      · simp only [List.length_drop]
        omega
      · simp only [List.length_drop]
        omega

/-- Claim C5: when a (well-formed, per C10's invariant) zoom range is set, the
visible data is the corresponding slice of the full series; otherwise it is
the subsequence of the series whose month key lies among the visible months,
in original order. -/
theorem visibleData_composition :
    ∀ (historical : List HistoricalDataPoint) (st : ChartState),
      (st.zoomRange = none →
        visibleData historical st =
          historical.filter
            (fun d => decide (monthKey d.date ∈ visibleMonths historical st.windowStart))) ∧
      (∀ r, st.zoomRange = some r → 0 ≤ r.start → r.start < r.«end» →
        visibleData historical st =
          (historical.drop r.start.toNat).take (r.«end» - r.start).toNat) := by
  intro historical st
  constructor
  · intro h
    simp [visibleData, h, monthView]
  · intro r h h0 hlt
    simp only [visibleData, h]
    rw [if_pos ⟨h0, hlt⟩]
    exact jsSlice_eq_drop_take historical r.start r.«end» h0 (le_of_lt hlt)

/-- Witness for C5: both branches evaluated on the sample series — the month
view when unzoomed, and the slice `[3, 10)` when zoomed. -/
theorem visibleData_composition_witness :
    visibleData sampleSeries ⟨6, none⟩ =
      sampleSeries.filter (fun d => decide (monthKey d.date ∈ visibleMonths sampleSeries 6)) ∧
    visibleData sampleSeries ⟨6, some ⟨3, 10⟩⟩ =
      (sampleSeries.drop ((3 : ℤ)).toNat).take (((10 : ℤ) - 3)).toNat :=
  ⟨(visibleData_composition sampleSeries ⟨6, none⟩).1 rfl,
   (visibleData_composition sampleSeries ⟨6, some ⟨3, 10⟩⟩).2 ⟨3, 10⟩ rfl (by decide) (by decide)⟩

/-- Claim C6: with finite bounds `a = rawMin` and `b = rawMax`, the unzoomed
axis domain is `(⌊a - 15⌋, ⌈b + 15⌉)` — a fixed 15-unit margin after
floor/ceil — and the zoomed domain is `(a - 5% of range, b + 5% of range)`. -/
theorem yDomain_margins :
    ∀ (data : List HistoricalDataPoint) (a b : ℚ),
      rawMin data = JVal.fin a → rawMax data = JVal.fin b →
      yDomain data false = (JVal.fin ((⌊a - 15⌋ : ℤ) : ℚ), JVal.fin ((⌈b + 15⌉ : ℤ) : ℚ)) ∧
      yDomain data true =
        (JVal.fin (a - (b - a) * (5 / 100)), JVal.fin (b + (b - a) * (5 / 100))) := by
  intro data a b h1 h2
  constructor <;> simp [yDomain, h1, h2]

/-- Witness for C6: the two-point subset has `rawMin = 8`, `rawMax = 20`, and
both margin rules apply as stated. -/
theorem yDomain_margins_witness :
    yDomain pairData false
      = (JVal.fin ((⌊(8 : ℚ) - 15⌋ : ℤ) : ℚ), JVal.fin ((⌈(20 : ℚ) + 15⌉ : ℤ) : ℚ)) ∧
    yDomain pairData true
      = (JVal.fin (8 - ((20 : ℚ) - 8) * (5 / 100)), JVal.fin (20 + ((20 : ℚ) - 8) * (5 / 100))) :=
  yDomain_margins pairData 8 20 (by decide) (by decide)

/-- Counterexample for C3: for the empty visible subset the source does not
return `undefined` — it skips the margin adjustment and passes the raw bounds
`Infinity` and `-Infinity` straight through as the `YAxis` domain, whereas the
spec's axis-domain computation (modelled by `axisDomainSpec`) yields `none`. -/
theorem empty_axis_not_undefined :
    yDomain ([] : List HistoricalDataPoint) false = (JVal.posInf, JVal.negInf) ∧
    axisDomainSpec ([] : List HistoricalDataPoint) false = none :=
  ⟨rfl, rfl⟩

/-- Claim C3 (amended): whenever the visible subset is empty or a computed
bound is non-finite, the margin adjustment is skipped and the raw (possibly
infinite) bounds are passed through unchanged as the axis domain; for the
empty subset that domain is `(Infinity, -Infinity)`. `undefined` is never
produced. -/
theorem yDomain_passthrough :
    ∀ (data : List HistoricalDataPoint) (zoomSet : Bool),
      ((rawMin data).isFinite = false ∨ (rawMax data).isFinite = false →
        yDomain data zoomSet = (rawMin data, rawMax data)) ∧
      yDomain ([] : List HistoricalDataPoint) zoomSet = (JVal.posInf, JVal.negInf) := by
  intro data zoomSet
  constructor
  · intro h
    rcases hm : rawMin data with q | _ | _ <;> rcases hx : rawMax data with q' | _ | _ <;>
      simp_all [yDomain, JVal.isFinite]
  · rfl

/-- Witness for C3's amended theorem: the empty subset has non-finite raw
bounds and the domain passed on is exactly that raw pair. -/
theorem yDomain_passthrough_witness :
    yDomain ([] : List HistoricalDataPoint) false
      = (rawMin ([] : List HistoricalDataPoint), rawMax ([] : List HistoricalDataPoint)) :=
  (yDomain_passthrough [] false).1 (Or.inl rfl)

end FinanceChart
